import Mathlib

/-!
Shallow embedding of `bevy-simple-state-machine` (`src/lib.rs`).

The crate drives an animation state machine per entity.  We embed the data
model and the two per-entity systems:

* `check_transitions` (lib.rs 126-159): per tick, look up the current state;
  if it is interruptible or the animation finished, walk the candidate
  transitions collected from the tick-start state, and for each one whose
  trigger evaluates true and whose destination resolves, set `current_state`,
  play the destination clip and emit a `TransitionEndedEvent` whose `origin`
  is the state captured at tick start.
* `init_state_machines` (lib.rs 161-172): on attachment, play the current
  state's clip when it resolves.

Modelling choices: Bevy `HashMap`s become association lists keyed by
`String`; `Handle<AnimationClip>` becomes a `Nat` id; `f32` playback times
become `Rat`; `Entity` becomes `Nat`; the `panic!` inside
`AnimationStateRef::unwrap` becomes `Option`/`Except.error`; the play
commands sent to the `AnimationPlayer` and the events sent to the
`EventWriter` are collected into output lists.
-/

/-- Model of `StateMachineVariableType` (lib.rs 189-200).  `F32` is modelled
by `Rat`, `I32` by `Int`, `U32` by `Nat`; only equality tests are performed
on them in the source. -/
inductive StateMachineVariableType where
  | Bool (b : Bool)
  | F32 (x : Rat)
  | I32 (n : Int)
  | U32 (n : Nat)
  | Str (s : String)
deriving DecidableEq

/-- Model of the `StateMachineVariables` map (lib.rs 185): an association
list standing in for `HashMap<String, StateMachineVariableType>`. -/
abbrev StateMachineVariables := List (String × StateMachineVariableType)

/-- Model of `AnimationStateRef` (lib.rs 367-372). -/
inductive AnimationStateRef where
  | AnyState
  | StateName (s : String)
deriving DecidableEq

/-- `AnimationStateRef::from_string` (lib.rs 376-378). -/
def AnimationStateRef.from_string (name : String) : AnimationStateRef :=
  AnimationStateRef.StateName name

/-- `AnimationStateRef::unwrap` (lib.rs 380-386): the `panic!` on
`AnyState` is modelled by `none`. -/
def AnimationStateRef.unwrap : AnimationStateRef → Option String
  | AnimationStateRef.AnyState => none
  | AnimationStateRef.StateName state => some state

/-- `AnimationStateRef::is_any` (lib.rs 389-391). -/
def AnimationStateRef.is_any : AnimationStateRef → Bool
  | AnimationStateRef.AnyState => true
  | AnimationStateRef.StateName _ => false

/-- Model of `AnimationState` (lib.rs 350-357); `clip` is a handle id. -/
structure AnimationState where
  clip : Nat
  name : String
  interruptible : Bool
deriving DecidableEq

/-- `AnimationState::state_ref` (lib.rs 360-362). -/
def AnimationState.state_ref (s : AnimationState) : AnimationStateRef :=
  AnimationStateRef.StateName s.name

/-- Model of `StateMachineTrigger` (lib.rs 452-460); the `Condition` arrow
carries an arbitrary boolean function of the variable store. -/
inductive StateMachineTrigger where
  | Never
  | Always
  | Condition (f : StateMachineVariables → Bool)

/-- `StateMachineTrigger::evaluate` (lib.rs 476-482). -/
def StateMachineTrigger.evaluate : StateMachineTrigger → StateMachineVariables → Bool
  | StateMachineTrigger.Never, _ => false
  | StateMachineTrigger.Always, _ => true
  | StateMachineTrigger.Condition f, «variables» => f «variables»

/-- Model of `StateMachineTransition` (lib.rs 415-426). -/
structure StateMachineTransition where
  start_state : AnimationStateRef
  end_state : AnimationStateRef
  trigger : StateMachineTrigger

/-- Model of `AnimationStateMachine` (lib.rs 275-280); the two `HashMap`s
become association lists. -/
structure AnimationStateMachine where
  current_state : String
  states : List (String × AnimationState)
  transitions : List StateMachineTransition
  «variables» : StateMachineVariables

/-- `AnimationStateMachine::new` (lib.rs 284-302), at `T = String`: the
constructor copies its arguments into the component without validation. -/
def AnimationStateMachine.new (current_state : String)
    (states : List (String × AnimationState))
    (transitions : List StateMachineTransition)
    («variables» : StateMachineVariables) : AnimationStateMachine :=
  { current_state := current_state, states := states,
    transitions := transitions, «variables» := «variables» }

/-- `AnimationStateMachine::get_state` (lib.rs 309-314): `contains_key`
followed by indexing is modelled by association-list lookup. -/
def AnimationStateMachine.get_state (m : AnimationStateMachine)
    (state_name : String) : Option AnimationState :=
  m.states.lookup state_name

/-- `AnimationStateMachine::current_state()` (lib.rs 305-307), named
`currentStateOpt` because the field already takes the source name. -/
def AnimationStateMachine.currentStateOpt (m : AnimationStateMachine) :
    Option AnimationState :=
  m.get_state m.current_state

/-- `AnimationStateMachine::transitions_from_state` (lib.rs 316-325). -/
def AnimationStateMachine.transitions_from_state (m : AnimationStateMachine)
    (state_name : String) : List StateMachineTransition :=
  m.transitions.filter fun t =>
    t.start_state == AnimationStateRef.StateName state_name || t.start_state.is_any

/-- `AnimationStateMachine::transitions_from_current_state` (lib.rs 327-329). -/
def AnimationStateMachine.transitions_from_current_state
    (m : AnimationStateMachine) : List StateMachineTransition :=
  m.transitions_from_state m.current_state

/-- `AnimationStateMachine::update_variable` (lib.rs 343-345): association
list insert replacing the first binding of the name. -/
def AnimationStateMachine.update_variable (m : AnimationStateMachine)
    (name : String) (value : StateMachineVariableType) : AnimationStateMachine :=
  { m with «variables» := (name, value) ::
      m.«variables».filter (fun p => !(p.fst == name)) }

/-- Model of an `AnimationClip` asset: only its `duration` is read. -/
structure AnimationClip where
  duration : Rat

/-- Model of `Assets<AnimationClip>`: handle id to clip. -/
abbrev AnimationAssets := List (Nat × AnimationClip)

/-- Model of `AnimationPlayer`: only `elapsed()` is read; the `play` calls
issued by the systems are collected in the step outputs instead. -/
structure AnimationPlayer where
  elapsed : Rat

/-- `AnimationStateMachine::animation_finished` (lib.rs 331-340). -/
def AnimationStateMachine.animation_finished (player : AnimationPlayer)
    (state : AnimationState) (animations : AnimationAssets) : Bool :=
  match animations.lookup state.clip with
  | some clip => decide (clip.duration ≤ player.elapsed)
  | none => true

/-- Model of `TransitionEndedEvent` (lib.rs 490-497). -/
structure TransitionEndedEvent where
  entity : Nat
  origin : AnimationStateRef
  «end» : AnimationStateRef
deriving DecidableEq

/-- Output of one `check_transitions` pass over a single entity: the
machine after the tick, the clips passed to `AnimationPlayer::play`, in
order, and the emitted events, in order. -/
structure TickOutput where
  machine : AnimationStateMachine
  plays : List Nat
  events : List TransitionEndedEvent

/-- The transition loop inside `check_transitions` (lib.rs 140-155):
`origin_state` is the `current_state` binding captured at tick start, `ts`
the candidate list, and the machine is threaded through.  The `panic!`
reached through `AnimationStateRef::unwrap` on a wildcard destination is
modelled by `Except.error`. -/
def runTransitions (entity : Nat) (origin_state : AnimationState) :
    List StateMachineTransition → AnimationStateMachine →
    Except String (AnimationStateMachine × List Nat × List TransitionEndedEvent)
  | [], m => Except.ok (m, [], [])
  | t :: rest, m =>
    if t.trigger.evaluate m.«variables» then
      match t.end_state.unwrap with
      | none => Except.error "Unexpected AnimationStateRef::AnyState"
      | some end_name =>
        match m.get_state end_name with
        | some next_state =>
          match runTransitions entity origin_state rest
              { m with current_state := next_state.name } with
          | Except.ok (m2, plays, evs) =>
            Except.ok (m2, next_state.clip :: plays,
              { entity := entity, origin := origin_state.state_ref,
                «end» := t.end_state } :: evs)
          | Except.error e => Except.error e
        | none => runTransitions entity origin_state rest m
    else runTransitions entity origin_state rest m

/-- One entity's pass of `SimpleStateMachinePlugin::check_transitions`
(lib.rs 126-159): resolve the tick-start state, test the gate, and run the
candidate list collected from the tick-start `current_state`. -/
def check_transitions (entity : Nat) (m : AnimationStateMachine)
    (player : AnimationPlayer) (animations : AnimationAssets) :
    Except String TickOutput :=
  match m.currentStateOpt with
  | none => Except.ok { machine := m, plays := [], events := [] }
  | some current_state =>
    if current_state.interruptible
        || AnimationStateMachine.animation_finished player current_state animations then
      match runTransitions entity current_state
          m.transitions_from_current_state m with
      | Except.ok (m2, plays, evs) =>
        Except.ok { machine := m2, plays := plays, events := evs }
      | Except.error e => Except.error e
    else
      Except.ok { machine := m, plays := [], events := [] }

/-- One entity's pass of `SimpleStateMachinePlugin::init_state_machines`
(lib.rs 161-172): the list of clips passed to `AnimationPlayer::play`.
The system reads the machine immutably and writes no events. -/
def init_state_machines (m : AnimationStateMachine) : List Nat :=
  match m.currentStateOpt with
  | some current_state => [current_state.clip]
  | none => []

/-- The destination state a transition resolves to in machine data
`(states, «variables»)`: `some s` exactly when its trigger evaluates true,
its destination is a named state, and that name is in the state table.
This is the condition under which lib.rs 146-152 runs for the transition. -/
def takenDest (states : List (String × AnimationState))
    («variables» : StateMachineVariables) (t : StateMachineTransition) :
    Option AnimationState :=
  if t.trigger.evaluate «variables» then
    match t.end_state.unwrap with
    | some n => states.lookup n
    | none => none
  else none

/-- A transition reaches the `panic!` in `AnimationStateRef::unwrap`
exactly when its trigger evaluates true and its destination is the
wildcard. -/
def hitsWildcardDest («variables» : StateMachineVariables)
    (t : StateMachineTransition) : Bool :=
  t.trigger.evaluate «variables» && t.end_state.unwrap.isNone

/-- The value `current_state` holds after the transition loop processes
`ts` on machine data `(states, vars)`, starting from `cs`: each transition
that resolves a destination overwrites it with that destination's `name`
field. -/
def finalState (states : List (String × AnimationState))
    (vars : StateMachineVariables) (ts : List StateMachineTransition)
    (cs : String) : String :=
  ts.foldl (fun cs t => match takenDest states vars t with
    | some s => s.name
    | none => cs) cs

/-! Concrete machines used to instantiate the theorems. -/

/-- Interruptible state `"a"`, clip handle 10. -/
def stA : AnimationState := { clip := 10, name := "a", interruptible := true }

/-- Interruptible state `"b"`, clip handle 11. -/
def stB : AnimationState := { clip := 11, name := "b", interruptible := true }

/-- Interruptible state `"c"`, clip handle 12. -/
def stC : AnimationState := { clip := 12, name := "c", interruptible := true }

/-- A state table holding `"a"`, `"b"`, `"c"`. -/
def exStates : List (String × AnimationState) := [("a", stA), ("b", stB), ("c", stC)]

/-- `"a" → "b"`, trigger `Always`. -/
def trAB : StateMachineTransition :=
  { start_state := AnimationStateRef.StateName "a",
    end_state := AnimationStateRef.StateName "b",
    trigger := StateMachineTrigger.Always }

/-- `"a" → "c"`, trigger `Always`. -/
def trAC : StateMachineTransition :=
  { start_state := AnimationStateRef.StateName "a",
    end_state := AnimationStateRef.StateName "c",
    trigger := StateMachineTrigger.Always }

/-- `"a" → "b"`, trigger `Never`. -/
def trNeverAB : StateMachineTransition :=
  { start_state := AnimationStateRef.StateName "a",
    end_state := AnimationStateRef.StateName "b",
    trigger := StateMachineTrigger.Never }

/-- `"a" → "d"` where `"d"` is not in `exStates`, trigger `Always`. -/
def trMissAD : StateMachineTransition :=
  { start_state := AnimationStateRef.StateName "a",
    end_state := AnimationStateRef.StateName "d",
    trigger := StateMachineTrigger.Always }

/-- `"a" → AnyState` (wildcard destination), trigger `Always`. -/
def trBadA : StateMachineTransition :=
  { start_state := AnimationStateRef.StateName "a",
    end_state := AnimationStateRef.AnyState,
    trigger := StateMachineTrigger.Always }

/-- Machine in `"a"` with two `Always` transitions out of `"a"`: both are
candidates of a tick starting in `"a"`, so they chain within one tick. -/
def chainM : AnimationStateMachine :=
  { current_state := "a", states := exStates,
    transitions := [trAB, trAC], «variables» := [] }

/-- A player with no elapsed time. -/
def exPlayer : AnimationPlayer := { elapsed := 0 }

/-- An empty clip-asset store (every clip counts as finished). -/
def exAssets : AnimationAssets := []

/-- The output one tick of `check_transitions` produces on `chainM`:
both transitions fire, `current_state` chains `"a" → "b" → "c"`, and both
events carry origin `"a"`. -/
def chainOut : TickOutput :=
  { machine :=
      { current_state := "c", states := exStates,
        transitions := [trAB, trAC], «variables» := [] },
    plays := [11, 12],
    events := [
      { entity := 0, origin := AnimationStateRef.StateName "a",
        «end» := AnimationStateRef.StateName "b" },
      { entity := 0, origin := AnimationStateRef.StateName "a",
        «end» := AnimationStateRef.StateName "c" } ] }

/-- Non-interruptible state `"lock"`, clip handle 20. -/
def lockState : AnimationState := { clip := 20, name := "lock", interruptible := false }

/-- Machine stuck in the non-interruptible `"lock"` state with an `Always`
transition out of it. -/
def lockM : AnimationStateMachine :=
  { current_state := "lock", states := [("lock", lockState), ("b", stB)],
    transitions := [{ start_state := AnimationStateRef.StateName "lock",
                      end_state := AnimationStateRef.StateName "b",
                      trigger := StateMachineTrigger.Always }],
    «variables» := [] }

/-- Asset store giving clip 20 duration 5. -/
def lockAssets : AnimationAssets := [(20, { duration := 5 })]

/-- Player whose elapsed time 1 is less than clip 20's duration 5. -/
def lockPlayer : AnimationPlayer := { elapsed := 1 }

/-- Machine whose `current_state` `"zz"` is not in the state table. -/
def ghostM : AnimationStateMachine :=
  { current_state := "zz", states := exStates,
    transitions := [trAB], «variables» := [] }

/-- Machine in `"a"` whose only transition points at the missing state `"d"`. -/
def missM : AnimationStateMachine :=
  { current_state := "a", states := exStates,
    transitions := [trMissAD], «variables» := [] }

/-- Machine in `"a"` whose only transition has a wildcard destination. -/
def badM : AnimationStateMachine :=
  { current_state := "a", states := exStates,
    transitions := [trBadA], «variables» := [] }

/-- `AnyState → "c"` (wildcard source), trigger `Always`. -/
def trAnyC : StateMachineTransition :=
  { start_state := AnimationStateRef.AnyState,
    end_state := AnimationStateRef.StateName "c",
    trigger := StateMachineTrigger.Always }

/-- Machine in `"b"` with one named-source transition and one
wildcard-source transition. -/
def wildM : AnimationStateMachine :=
  { current_state := "b", states := exStates,
    transitions := [trAB, trAnyC], «variables» := [] }

/-- Characterisation of the transition loop when no candidate reaches the
wildcard-destination panic: it succeeds, the final machine differs from the
input only in `current_state` (which folds the taken destinations), and it
plays one clip and emits one event per taken transition, in candidate
order, all events carrying the tick-start origin. -/
theorem runTransitions_ok (e : Nat) (s₀ : AnimationState)
    (ts : List StateMachineTransition) :
    ∀ m : AnimationStateMachine,
    (∀ t ∈ ts, hitsWildcardDest m.«variables» t = false) →
    runTransitions e s₀ ts m = Except.ok
      ({ m with current_state := finalState m.states m.«variables» ts m.current_state },
       ts.filterMap (fun t => (takenDest m.states m.«variables» t).map (fun s => s.clip)),
       ts.filterMap (fun t => (takenDest m.states m.«variables» t).map
          (fun _ => { entity := e, origin := s₀.state_ref, «end» := t.end_state }))) := by
  induction ts with
  | nil => intro m _; rfl
  | cons t rest ih =>
    intro m h
    have hrest : ∀ t' ∈ rest, hitsWildcardDest m.«variables» t' = false :=
      fun t' ht' => h t' (List.mem_cons_of_mem _ ht')
    have hhead : hitsWildcardDest m.«variables» t = false := h t (List.mem_cons_self _ _)
    cases htrig : t.trigger.evaluate m.«variables» with
    | false =>
      simp only [runTransitions, htrig, Bool.false_eq_true, if_false]
      rw [ih m hrest]
      simp [takenDest, finalState, htrig]
    | true =>
      cases hu : t.end_state.unwrap with
      | none =>
        exfalso
        simp [hitsWildcardDest, htrig, hu] at hhead
      | some n =>
        cases hlook : m.states.lookup n with
        | none =>
          simp only [runTransitions, htrig, if_true,
            AnimationStateMachine.get_state, hu, hlook]
          rw [ih m hrest]
          simp [takenDest, finalState, htrig, hu, hlook]
        | some s =>
          simp only [runTransitions, htrig, if_true,
            AnimationStateMachine.get_state, hu, hlook]
          rw [ih { m with current_state := s.name } hrest]
          simp [takenDest, finalState, htrig, hu, hlook]

/-- Characterisation of the transition loop when some candidate's trigger
evaluates true and its destination is the wildcard: the loop aborts with
the panic message of `AnimationStateRef::unwrap`. -/
theorem runTransitions_error (e : Nat) (s₀ : AnimationState)
    (ts : List StateMachineTransition) :
    ∀ m : AnimationStateMachine,
    (∃ t ∈ ts, hitsWildcardDest m.«variables» t = true) →
    runTransitions e s₀ ts m =
      Except.error "Unexpected AnimationStateRef::AnyState" := by
  induction ts with
  | nil =>
    intro m hex
    obtain ⟨t', ht', _⟩ := hex
    cases ht'
  | cons t rest ih =>
    intro m hex
    obtain ⟨t', ht', hp⟩ := hex
    cases List.mem_cons.mp ht' with
    | inl heq =>
      subst heq
      obtain ⟨htrig, hu⟩ : t'.trigger.evaluate m.«variables» = true ∧
          t'.end_state.unwrap = none := by
        constructor
        · by_contra hc
          simp [hitsWildcardDest, Bool.and_eq_true] at hp
          exact hc hp.1
        · by_contra hc
          simp [hitsWildcardDest, Bool.and_eq_true, Option.isNone_iff_eq_none] at hp
          exact hc hp.2
      simp [runTransitions, htrig, hu]
    | inr hmem =>
      cases htrig : t.trigger.evaluate m.«variables» with
      | false =>
        simp only [runTransitions, htrig, Bool.false_eq_true, if_false]
        exact ih m ⟨t', hmem, hp⟩
      | true =>
        cases hu : t.end_state.unwrap with
        | none => simp [runTransitions, htrig, hu]
        | some n =>
          cases hlook : m.states.lookup n with
          | none =>
            simp only [runTransitions, htrig, if_true,
              AnimationStateMachine.get_state, hu, hlook]
            exact ih m ⟨t', hmem, hp⟩
          | some s =>
            simp only [runTransitions, htrig, if_true,
              AnimationStateMachine.get_state, hu, hlook]
            rw [ih { m with current_state := s.name } ⟨t', hmem, hp⟩]

/-- A successful association-list lookup returns a stored binding. -/
theorem lookup_mem {α β : Type} [BEq α] [LawfulBEq α]
    {l : List (α × β)} {k : α} {v : β}
    (h : l.lookup k = some v) : (k, v) ∈ l := by
  induction l with
  | nil => cases h
  | cons p rest ih =>
    rw [List.lookup] at h
    cases hbeq : k == p.fst with
    | true =>
      rw [hbeq] at h
      cases h
      have : k = p.fst := eq_of_beq hbeq
      subst this
      exact List.mem_cons_self _ _
    | false =>
      rw [hbeq] at h
      exact List.mem_cons_of_mem _ (ih h)

/-- `filterMap` produces exactly one element per input on which the
function succeeds. -/
theorem length_filterMap_isSome {α β : Type} (f : α → Option β) :
    ∀ l : List α, (l.filterMap f).length = (l.filter fun x => (f x).isSome).length := by
  intro l
  induction l with
  | nil => rfl
  | cons x xs ih =>
    cases hfx : f x <;>
      simp [List.filterMap_cons, List.filter_cons, hfx, ih]

/-- Unfolding of `takenDest` on success: the trigger evaluated true, the
destination is a named state, and the name is bound in the table. -/
theorem takenDest_eq_some {states : List (String × AnimationState)}
    {vars : StateMachineVariables} {t : StateMachineTransition}
    {s : AnimationState} (h : takenDest states vars t = some s) :
    t.trigger.evaluate vars = true ∧
    ∃ n, t.end_state.unwrap = some n ∧ states.lookup n = some s := by
  rw [takenDest] at h
  cases htrig : t.trigger.evaluate vars with
  | false => rw [htrig] at h; cases h
  | true =>
    rw [htrig] at h
    simp only [if_true] at h
    cases hu : t.end_state.unwrap with
    | none => rw [hu] at h; cases h
    | some n =>
      rw [hu] at h
      exact ⟨rfl, n, rfl, h⟩

/-- When every stored state's `name` field equals its key, the fold of the
transition loop keeps `current_state` bound in the state table. -/
theorem finalState_lookup_isSome (states : List (String × AnimationState))
    (vars : StateMachineVariables)
    (hnames : ∀ p ∈ states, p.2.name = p.1) :
    ∀ (ts : List StateMachineTransition) (cs : String),
    (states.lookup cs).isSome = true →
    (states.lookup (finalState states vars ts cs)).isSome = true := by
  intro ts
  induction ts with
  | nil => intro cs h; simpa [finalState] using h
  | cons t rest ih =>
    intro cs h
    cases hd : takenDest states vars t with
    | none =>
      have heq : finalState states vars (t :: rest) cs =
          finalState states vars rest cs := by
        simp [finalState, List.foldl_cons, hd]
      rw [heq]
      exact ih cs h
    | some s =>
      have heq : finalState states vars (t :: rest) cs =
          finalState states vars rest s.name := by
        simp [finalState, List.foldl_cons, hd]
      rw [heq]
      apply ih
      obtain ⟨-, n, -, hl⟩ := takenDest_eq_some hd
      have hname : s.name = n := hnames (n, s) (lookup_mem hl)
      rw [hname, hl]
      rfl

/-- `check_transitions` on an entity whose `current_state` names no state:
the tick is inert (lib.rs 132 finds no state, so nothing runs). -/
theorem check_transitions_unknown (e : Nat) (m : AnimationStateMachine)
    (p : AnimationPlayer) (a : AnimationAssets)
    (h : m.currentStateOpt = none) :
    check_transitions e m p a =
      Except.ok { machine := m, plays := [], events := [] } := by
  simp [check_transitions, h]

/-- `check_transitions` when the gate of lib.rs 133-139 fails: the
candidate loop is never entered. -/
theorem check_transitions_gate_false (e : Nat) (m : AnimationStateMachine)
    (p : AnimationPlayer) (a : AnimationAssets) (s₀ : AnimationState)
    (hs : m.currentStateOpt = some s₀)
    (hgate : (s₀.interruptible
      || AnimationStateMachine.animation_finished p s₀ a) = false) :
    check_transitions e m p a =
      Except.ok { machine := m, plays := [], events := [] } := by
  simp [check_transitions, hs, hgate]

/-- `check_transitions` when the gate holds and no candidate reaches the
wildcard-destination panic: full description of the tick. -/
theorem check_transitions_ok_spec (e : Nat) (m : AnimationStateMachine)
    (p : AnimationPlayer) (a : AnimationAssets) (s₀ : AnimationState)
    (hs : m.currentStateOpt = some s₀)
    (hgate : (s₀.interruptible
      || AnimationStateMachine.animation_finished p s₀ a) = true)
    (hnopanic : ∀ t ∈ m.transitions_from_current_state,
      hitsWildcardDest m.«variables» t = false) :
    check_transitions e m p a = Except.ok
      { machine :=
          { m with
            current_state := finalState m.states m.«variables»
              m.transitions_from_current_state m.current_state },
        plays := m.transitions_from_current_state.filterMap
          (fun t => (takenDest m.states m.«variables» t).map (fun s => s.clip)),
        events := m.transitions_from_current_state.filterMap
          (fun t => (takenDest m.states m.«variables» t).map
            (fun _ => { entity := e, origin := s₀.state_ref,
                        «end» := t.end_state })) } := by
  simp only [check_transitions, hs, hgate, if_true]
  rw [runTransitions_ok e s₀ _ m hnopanic]

/-- `check_transitions` when the gate holds and some candidate's trigger
evaluates true with a wildcard destination: the tick aborts with the panic
of `AnimationStateRef::unwrap`. -/
theorem check_transitions_error_spec (e : Nat) (m : AnimationStateMachine)
    (p : AnimationPlayer) (a : AnimationAssets) (s₀ : AnimationState)
    (hs : m.currentStateOpt = some s₀)
    (hgate : (s₀.interruptible
      || AnimationStateMachine.animation_finished p s₀ a) = true)
    (hpanic : ∃ t ∈ m.transitions_from_current_state,
      hitsWildcardDest m.«variables» t = true) :
    check_transitions e m p a =
      Except.error "Unexpected AnimationStateRef::AnyState" := by
  simp only [check_transitions, hs, hgate, if_true]
  rw [runTransitions_error e s₀ _ m hpanic]

/-- Inversion: a tick that returned normally under a satisfied gate had no
panicking candidate, and its output has the `check_transitions_ok_spec`
shape. -/
theorem check_transitions_ok_inv (e : Nat) (m : AnimationStateMachine)
    (p : AnimationPlayer) (a : AnimationAssets) (s₀ : AnimationState)
    (out : TickOutput)
    (hs : m.currentStateOpt = some s₀)
    (hgate : (s₀.interruptible
      || AnimationStateMachine.animation_finished p s₀ a) = true)
    (hok : check_transitions e m p a = Except.ok out) :
    (∀ t ∈ m.transitions_from_current_state,
      hitsWildcardDest m.«variables» t = false) ∧
    out = { machine :=
              { m with
                current_state := finalState m.states m.«variables»
                  m.transitions_from_current_state m.current_state },
            plays := m.transitions_from_current_state.filterMap
              (fun t => (takenDest m.states m.«variables» t).map (fun s => s.clip)),
            events := m.transitions_from_current_state.filterMap
              (fun t => (takenDest m.states m.«variables» t).map
                (fun _ => { entity := e, origin := s₀.state_ref,
                            «end» := t.end_state })) } := by
  by_cases hp : ∀ t ∈ m.transitions_from_current_state,
      hitsWildcardDest m.«variables» t = false
  · refine ⟨hp, ?_⟩
    have hspec := check_transitions_ok_spec e m p a s₀ hs hgate hp
    rw [hok] at hspec
    exact Except.ok.inj hspec
  · exfalso
    push_neg at hp
    obtain ⟨t, ht, hne⟩ := hp
    have hpt : hitsWildcardDest m.«variables» t = true :=
      eq_true_of_ne_false hne
    have := check_transitions_error_spec e m p a s₀ hs hgate ⟨t, ht, hpt⟩
    rw [hok] at this
    cases this

/-- C1, counterexample: on `chainM` two transitions chain within one tick
(`"a" → "b"` then, still from the original candidate list, `"a" → "c"`).
The claim predicts the second event's origin is the first transition's
destination `"b"`, i.e. an origin list `["a", "b"]`; the code emits the
tick-start state `"a"` as origin of every event, so the origin list is
`["a", "a"]`, which differs from the predicted one. -/
theorem C1_origin_counterexample :
    (check_transitions 0 chainM exPlayer exAssets).toOption.map
        (fun out => out.events.map TransitionEndedEvent.origin) =
      some [AnimationStateRef.StateName "a", AnimationStateRef.StateName "a"] ∧
    [AnimationStateRef.StateName "a", AnimationStateRef.StateName "a"] ≠
      [AnimationStateRef.StateName "a", AnimationStateRef.StateName "b"] := by
  exact ⟨rfl, by decide⟩

/-- C1, amended: for every tick taken under a satisfied gate, exactly one
event is emitted per taken transition, in candidate order, with
destination equal to the transition's declared destination and origin equal
to the name of the state `current_state` resolved to at tick start — for
every event of the tick, so when two transitions chain within one tick the
second event's origin is the tick-start state, not the first transition's
destination. -/
theorem C1_events_per_taken_transition (e : Nat) (m : AnimationStateMachine)
    (p : AnimationPlayer) (a : AnimationAssets) (s₀ : AnimationState)
    (out : TickOutput)
    (hs : m.currentStateOpt = some s₀)
    (hgate : (s₀.interruptible
      || AnimationStateMachine.animation_finished p s₀ a) = true)
    (hok : check_transitions e m p a = Except.ok out) :
    out.events = m.transitions_from_current_state.filterMap
      (fun t => (takenDest m.states m.«variables» t).map
        (fun _ => { entity := e, origin := AnimationStateRef.StateName s₀.name,
                    «end» := t.end_state })) := by
  obtain ⟨-, rfl⟩ := check_transitions_ok_inv e m p a s₀ out hs hgate hok
  rfl

/-- Witness for `C1_events_per_taken_transition` at `chainM`. -/
theorem C1_events_per_taken_transition_witness :
    chainOut.events = chainM.transitions_from_current_state.filterMap
      (fun t => (takenDest chainM.states chainM.«variables» t).map
        (fun _ => { entity := 0, origin := AnimationStateRef.StateName stA.name,
                    «end» := t.end_state })) :=
  C1_events_per_taken_transition 0 chainM exPlayer exAssets stA chainOut rfl rfl rfl

/-- C2: the candidate list of a tick is fixed before any mutation.  Under a
satisfied gate, every candidate whose trigger evaluates true and whose
destination resolves produces an event — the count of events equals the
count of such candidates over the tick-start candidate list, and
`current_state` folds through all of their destinations — and concretely on
`chainM` the two transitions out of the original source `"a"` both fire in
one tick, advancing `current_state` twice (`"a" → "b" → "c"`). -/
theorem C2_candidates_fixed_before_mutation :
    (∀ (e : Nat) (m : AnimationStateMachine) (p : AnimationPlayer)
        (a : AnimationAssets) (s₀ : AnimationState) (out : TickOutput),
      m.currentStateOpt = some s₀ →
      (s₀.interruptible
        || AnimationStateMachine.animation_finished p s₀ a) = true →
      check_transitions e m p a = Except.ok out →
      out.events.length = (m.transitions_from_current_state.filter
        (fun t => (takenDest m.states m.«variables» t).isSome)).length ∧
      out.machine.current_state = finalState m.states m.«variables»
        m.transitions_from_current_state m.current_state) ∧
    (check_transitions 0 chainM exPlayer exAssets).toOption.map
        (fun out => (out.machine.current_state, out.plays, out.events.length)) =
      some ("c", [11, 12], 2) := by
  constructor
  · intro e m p a s₀ out hs hgate hok
    obtain ⟨-, rfl⟩ := check_transitions_ok_inv e m p a s₀ out hs hgate hok
    refine ⟨?_, rfl⟩
    show (m.transitions_from_current_state.filterMap _).length = _
    rw [length_filterMap_isSome]
    simp [Option.isSome_map]
  · rfl

/-- Witness for the universal part of `C2_candidates_fixed_before_mutation`
at `chainM`. -/
theorem C2_candidates_fixed_before_mutation_witness :
    chainOut.events.length = (chainM.transitions_from_current_state.filter
      (fun t => (takenDest chainM.states chainM.«variables» t).isSome)).length ∧
    chainOut.machine.current_state = finalState chainM.states chainM.«variables»
      chainM.transitions_from_current_state chainM.current_state :=
  C2_candidates_fixed_before_mutation.1 0 chainM exPlayer exAssets stA chainOut
    rfl rfl rfl

/-- C3: the gate of a tick is `interruptible OR animation_finished`, where
`animation_finished` is true when the clip asset cannot be resolved and
otherwise true iff the player's elapsed time is at least the clip's
duration; a failed gate makes the tick inert, and in particular a
non-interruptible state with `elapsed < duration` fires no transition that
tick; a satisfied gate runs the candidate loop in full. -/
theorem C3_gate_semantics (e : Nat) (m : AnimationStateMachine)
    (p : AnimationPlayer) (a : AnimationAssets) (s₀ : AnimationState)
    (hs : m.currentStateOpt = some s₀) :
    (a.lookup s₀.clip = none →
      AnimationStateMachine.animation_finished p s₀ a = true) ∧
    (∀ c, a.lookup s₀.clip = some c →
      (AnimationStateMachine.animation_finished p s₀ a = true ↔
        c.duration ≤ p.elapsed)) ∧
    ((s₀.interruptible
        || AnimationStateMachine.animation_finished p s₀ a) = false →
      check_transitions e m p a =
        Except.ok { machine := m, plays := [], events := [] }) ∧
    (∀ c, s₀.interruptible = false → a.lookup s₀.clip = some c →
      p.elapsed < c.duration →
      check_transitions e m p a =
        Except.ok { machine := m, plays := [], events := [] }) ∧
    ((s₀.interruptible
        || AnimationStateMachine.animation_finished p s₀ a) = true →
      (∀ t ∈ m.transitions_from_current_state,
        hitsWildcardDest m.«variables» t = false) →
      check_transitions e m p a = Except.ok
        { machine :=
            { m with
              current_state := finalState m.states m.«variables»
                m.transitions_from_current_state m.current_state },
          plays := m.transitions_from_current_state.filterMap
            (fun t => (takenDest m.states m.«variables» t).map (fun s => s.clip)),
          events := m.transitions_from_current_state.filterMap
            (fun t => (takenDest m.states m.«variables» t).map
              (fun _ => { entity := e, origin := s₀.state_ref,
                          «end» := t.end_state })) }) := by
  refine ⟨?_, ?_, ?_, ?_, ?_⟩
  · intro h
    simp [AnimationStateMachine.animation_finished, h]
  · intro c hc
    simp [AnimationStateMachine.animation_finished, hc]
  · exact check_transitions_gate_false e m p a s₀ hs
  · intro c hint hc hlt
    apply check_transitions_gate_false e m p a s₀ hs
    simp [hint, AnimationStateMachine.animation_finished, hc, not_le.mpr hlt]
  · intro hgate hnopanic
    exact check_transitions_ok_spec e m p a s₀ hs hgate hnopanic

/-- Witness for `C3_gate_semantics`: `lockM` sits in the non-interruptible
state `"lock"` whose clip has duration 5 while only 1 has elapsed, so its
`Always` transition does not fire. -/
theorem C3_gate_semantics_witness :
    check_transitions 0 lockM lockPlayer lockAssets =
      Except.ok { machine := lockM, plays := [], events := [] } :=
  (C3_gate_semantics 0 lockM lockPlayer lockAssets lockState rfl).2.2.2.1
    { duration := 5 } rfl rfl (by norm_num [lockPlayer])

/-- C4: a transition whose destination is the wildcard marker aborts the
tick fatally exactly at the moment it is taken — in a tick whose gate holds
and whose trigger evaluates true — and never otherwise: if no candidate
with a true trigger has a wildcard destination the tick returns normally,
and constructing the machine performs no validation at all. -/
theorem C4_wildcard_destination_fatal :
    (∀ (e : Nat) (m : AnimationStateMachine) (p : AnimationPlayer)
        (a : AnimationAssets) (s₀ : AnimationState) (t : StateMachineTransition),
      m.currentStateOpt = some s₀ →
      (s₀.interruptible
        || AnimationStateMachine.animation_finished p s₀ a) = true →
      t ∈ m.transitions_from_current_state →
      t.trigger.evaluate m.«variables» = true →
      t.end_state = AnimationStateRef.AnyState →
      check_transitions e m p a =
        Except.error "Unexpected AnimationStateRef::AnyState") ∧
    (∀ (e : Nat) (m : AnimationStateMachine) (p : AnimationPlayer)
        (a : AnimationAssets),
      (∀ t ∈ m.transitions_from_current_state,
        t.trigger.evaluate m.«variables» = true →
        t.end_state ≠ AnimationStateRef.AnyState) →
      ∃ out, check_transitions e m p a = Except.ok out) ∧
    (∀ (cs : String) (states : List (String × AnimationState))
        (ts : List StateMachineTransition) (vars : StateMachineVariables),
      AnimationStateMachine.new cs states ts vars =
        { current_state := cs, states := states,
          transitions := ts, «variables» := vars }) := by
  refine ⟨?_, ?_, fun _ _ _ _ => rfl⟩
  · intro e m p a s₀ t hs hgate ht htrig hend
    apply check_transitions_error_spec e m p a s₀ hs hgate
    refine ⟨t, ht, ?_⟩
    simp [hitsWildcardDest, htrig, hend, AnimationStateRef.unwrap]
  · intro e m p a hsafe
    cases hcs : m.currentStateOpt with
    | none => exact ⟨_, check_transitions_unknown e m p a hcs⟩
    | some s₀ =>
      cases hgate : (s₀.interruptible
          || AnimationStateMachine.animation_finished p s₀ a) with
      | false => exact ⟨_, check_transitions_gate_false e m p a s₀ hcs hgate⟩
      | true =>
        refine ⟨_, check_transitions_ok_spec e m p a s₀ hcs hgate ?_⟩
        intro t ht
        cases htrig : t.trigger.evaluate m.«variables» with
        | false => simp [hitsWildcardDest, htrig]
        | true =>
          have hne := hsafe t ht htrig
          cases hend : t.end_state with
          | AnyState => exact absurd hend hne
          | StateName n => simp [hitsWildcardDest, hend, AnimationStateRef.unwrap]

/-- Witness for `C4_wildcard_destination_fatal`: `badM`'s only transition
has a wildcard destination and an `Always` trigger, and the tick aborts;
dropping the trigger (`ghostM`-style safe machines) returns normally. -/
theorem C4_wildcard_destination_fatal_witness :
    check_transitions 0 badM exPlayer exAssets =
      Except.error "Unexpected AnimationStateRef::AnyState" :=
  C4_wildcard_destination_fatal.1 0 badM exPlayer exAssets stA trBadA rfl rfl
    (by simp [badM, trBadA, AnimationStateMachine.transitions_from_current_state,
      AnimationStateMachine.transitions_from_state]) rfl rfl

/-- C5: missing references are silent no-ops.  A tick whose `current_state`
names no state in the table does nothing (no play, no event, no state
change, no panic); and a candidate whose trigger fired but whose named
destination is absent from the table is skipped — the loop continues
exactly as if the candidate were not there, with `current_state` unchanged,
no play command and no event for it. -/
theorem C5_missing_references_noop :
    (∀ (e : Nat) (m : AnimationStateMachine) (p : AnimationPlayer)
        (a : AnimationAssets),
      m.currentStateOpt = none →
      check_transitions e m p a =
        Except.ok { machine := m, plays := [], events := [] }) ∧
    (∀ (e : Nat) (s₀ : AnimationState) (t : StateMachineTransition)
        (rest : List StateMachineTransition) (m : AnimationStateMachine)
        (n : String),
      t.trigger.evaluate m.«variables» = true →
      t.end_state.unwrap = some n →
      m.states.lookup n = none →
      runTransitions e s₀ (t :: rest) m = runTransitions e s₀ rest m) := by
  refine ⟨check_transitions_unknown, ?_⟩
  intro e s₀ t rest m n htrig hu hlook
  simp [runTransitions, htrig, hu, AnimationStateMachine.get_state, hlook]

/-- Witness for `C5_missing_references_noop`: `ghostM`'s `current_state`
`"zz"` is unknown and its tick is inert; `missM`'s transition points at the
missing state `"d"` and processing it equals not processing it. -/
theorem C5_missing_references_noop_witness :
    check_transitions 0 ghostM exPlayer exAssets =
      Except.ok { machine := ghostM, plays := [], events := [] } ∧
    runTransitions 0 stA [trMissAD] missM = runTransitions 0 stA [] missM :=
  ⟨C5_missing_references_noop.1 0 ghostM exPlayer exAssets rfl,
   C5_missing_references_noop.2 0 stA trMissAD [] missM "d" rfl rfl rfl⟩

/-- C6: trigger evaluation is `Never ↦ false`, `Always ↦ true`,
`Condition f ↦ f` applied to the variable store, for every store;
consequently a `Never`-triggered candidate contributes nothing to any tick
regardless of the variable store (so it never fires under any sequence of
variable updates), and an `Always`-triggered candidate whose source matched
and whose destination resolves has its event emitted in any normally
returning tick whose gate holds, in particular the first one. -/
theorem C6_trigger_semantics :
    (∀ vars : StateMachineVariables,
      StateMachineTrigger.Never.evaluate vars = false) ∧
    (∀ vars : StateMachineVariables,
      StateMachineTrigger.Always.evaluate vars = true) ∧
    (∀ (f : StateMachineVariables → Bool) (vars : StateMachineVariables),
      (StateMachineTrigger.Condition f).evaluate vars = f vars) ∧
    (∀ (e : Nat) (s₀ : AnimationState) (t : StateMachineTransition)
        (rest : List StateMachineTransition) (m : AnimationStateMachine),
      t.trigger = StateMachineTrigger.Never →
      runTransitions e s₀ (t :: rest) m = runTransitions e s₀ rest m) ∧
    (∀ (e : Nat) (m : AnimationStateMachine) (p : AnimationPlayer)
        (a : AnimationAssets) (s₀ : AnimationState)
        (t : StateMachineTransition) (out : TickOutput),
      m.currentStateOpt = some s₀ →
      (s₀.interruptible
        || AnimationStateMachine.animation_finished p s₀ a) = true →
      t ∈ m.transitions_from_current_state →
      t.trigger = StateMachineTrigger.Always →
      (takenDest m.states m.«variables» t).isSome = true →
      check_transitions e m p a = Except.ok out →
      { entity := e, origin := s₀.state_ref,
        «end» := t.end_state } ∈ out.events) := by
  refine ⟨fun _ => rfl, fun _ => rfl, fun _ _ => rfl, ?_, ?_⟩
  · intro e s₀ t rest m hnever
    simp [runTransitions, hnever, StateMachineTrigger.evaluate]
  · intro e m p a s₀ t out hs hgate ht _ hsome hok
    obtain ⟨-, rfl⟩ := check_transitions_ok_inv e m p a s₀ out hs hgate hok
    show _ ∈ m.transitions_from_current_state.filterMap _
    apply List.mem_filterMap.mpr
    refine ⟨t, ht, ?_⟩
    obtain ⟨s, hds⟩ := Option.isSome_iff_exists.mp hsome
    rw [hds]
    rfl

/-- Witness for `C6_trigger_semantics`: on `chainM`, the `Always`
transition `trAB`'s event is among the tick's events, and prepending the
`Never` transition `trNeverAB` to a candidate list changes nothing. -/
theorem C6_trigger_semantics_witness :
    ({ entity := 0, origin := stA.state_ref,
       «end» := trAB.end_state } ∈ chainOut.events) ∧
    runTransitions 0 stA (trNeverAB :: [trAC]) chainM =
      runTransitions 0 stA [trAC] chainM :=
  ⟨C6_trigger_semantics.2.2.2.2 0 chainM exPlayer exAssets stA trAB chainOut
      rfl rfl
      (by simp [chainM, trAB, AnimationStateMachine.transitions_from_current_state,
        AnimationStateMachine.transitions_from_state])
      rfl rfl rfl,
   C6_trigger_semantics.2.2.2.1 0 stA trNeverAB [trAC] chainM rfl⟩

/-- C7: for a gated tick the candidate list is exactly the ordered
subsequence of the declared transition table whose members' source equals
the given state name or is the wildcard: it equals the filter of
`transitions` by that predicate, it is a sublist of `transitions`
(declared order preserved), a wildcard-source transition is a candidate for
every state name, and the per-tick list is the one taken at
`current_state`. -/
theorem C7_candidate_subsequence (m : AnimationStateMachine)
    (state_name : String) :
    m.transitions_from_state state_name = m.transitions.filter
      (fun t => decide (t.start_state = AnimationStateRef.StateName state_name ∨
        t.start_state = AnimationStateRef.AnyState)) ∧
    (m.transitions_from_state state_name).Sublist m.transitions ∧
    (∀ t ∈ m.transitions, t.start_state = AnimationStateRef.AnyState →
      t ∈ m.transitions_from_state state_name) ∧
    m.transitions_from_current_state = m.transitions_from_state m.current_state := by
  refine ⟨?_, ?_, ?_, rfl⟩
  · unfold AnimationStateMachine.transitions_from_state
    apply List.filter_congr
    intro t _
    cases hss : t.start_state with
    | AnyState => simp [AnimationStateRef.is_any]
    | StateName s =>
      by_cases hsn : s = state_name
      · subst hsn
        simp [AnimationStateRef.is_any]
      · simp [AnimationStateRef.is_any, hsn]
  · exact List.filter_sublist _
  · intro t ht hany
    unfold AnimationStateMachine.transitions_from_state
    refine List.mem_filter.mpr ⟨ht, ?_⟩
    simp [hany, AnimationStateRef.is_any]

/-- Witness for `C7_candidate_subsequence`: on `wildM` (current state
`"b"`), the wildcard-source transition `trAnyC` is a candidate. -/
theorem C7_candidate_subsequence_witness :
    trAnyC ∈ wildM.transitions_from_state "b" :=
  (C7_candidate_subsequence wildM "b").2.2.1 trAnyC
    (by simp [wildM]) rfl

/-- C8: a tick mutates only `current_state`: whatever the tick did, the
state table, the transition table and the variable store of the returned
machine are the input ones. -/
theorem C8_only_current_state_changes (e : Nat) (m : AnimationStateMachine)
    (p : AnimationPlayer) (a : AnimationAssets) (out : TickOutput)
    (hok : check_transitions e m p a = Except.ok out) :
    out.machine.states = m.states ∧
    out.machine.transitions = m.transitions ∧
    out.machine.«variables» = m.«variables» := by
  cases hcs : m.currentStateOpt with
  | none =>
    have h := check_transitions_unknown e m p a hcs
    rw [hok] at h
    obtain rfl := Except.ok.inj h
    exact ⟨rfl, rfl, rfl⟩
  | some s₀ =>
    cases hgate : (s₀.interruptible
        || AnimationStateMachine.animation_finished p s₀ a) with
    | false =>
      have h := check_transitions_gate_false e m p a s₀ hcs hgate
      rw [hok] at h
      obtain rfl := Except.ok.inj h
      exact ⟨rfl, rfl, rfl⟩
    | true =>
      obtain ⟨-, rfl⟩ := check_transitions_ok_inv e m p a s₀ out hcs hgate hok
      exact ⟨rfl, rfl, rfl⟩

/-- Witness for `C8_only_current_state_changes` at `chainM`, whose tick
changed `current_state` from `"a"` to `"c"`. -/
theorem C8_only_current_state_changes_witness :
    chainOut.machine.states = chainM.states ∧
    chainOut.machine.transitions = chainM.transitions ∧
    chainOut.machine.«variables» = chainM.«variables» :=
  C8_only_current_state_changes 0 chainM exPlayer exAssets chainOut rfl

/-- C10: when every stored state's `name` field equals its key, a tick
never sets `current_state` to a name absent from the state table: if the
tick-start `current_state` is bound in the table so is the tick-end one,
and a machine whose `current_state` is unknown comes back unchanged. -/
theorem C10_current_state_stays_known (e : Nat) (m : AnimationStateMachine)
    (p : AnimationPlayer) (a : AnimationAssets) (out : TickOutput)
    (hnames : ∀ s ∈ m.states, s.2.name = s.1)
    (hok : check_transitions e m p a = Except.ok out) :
    ((m.states.lookup m.current_state).isSome = true →
      (out.machine.states.lookup out.machine.current_state).isSome = true) ∧
    (m.states.lookup m.current_state = none → out.machine = m) := by
  constructor
  · intro hsome
    obtain ⟨s₀, hs⟩ := Option.isSome_iff_exists.mp hsome
    have hcs : m.currentStateOpt = some s₀ := hs
    cases hgate : (s₀.interruptible
        || AnimationStateMachine.animation_finished p s₀ a) with
    | false =>
      have h := check_transitions_gate_false e m p a s₀ hcs hgate
      rw [hok] at h
      obtain rfl := Except.ok.inj h
      exact hsome
    | true =>
      obtain ⟨-, rfl⟩ := check_transitions_ok_inv e m p a s₀ out hcs hgate hok
      exact finalState_lookup_isSome m.states m.«variables» hnames
        m.transitions_from_current_state m.current_state hsome
  · intro hnone
    have hcs : m.currentStateOpt = none := hnone
    have h := check_transitions_unknown e m p a hcs
    rw [hok] at h
    obtain rfl := Except.ok.inj h
    rfl

/-- Witness for `C10_current_state_stays_known` at `chainM`, whose state
table keys coincide with the stored names. -/
theorem C10_current_state_stays_known_witness :
    ((chainM.states.lookup chainM.current_state).isSome = true →
      (chainOut.machine.states.lookup chainOut.machine.current_state).isSome = true) ∧
    (chainM.states.lookup chainM.current_state = none → chainOut.machine = chainM) :=
  C10_current_state_stays_known 0 chainM exPlayer exAssets chainOut
    (by decide) rfl
